import Mathlib

/-!
Verification of `D31_VertexColorSelector.py` (Blender vertex-color selector
add-on).  The host program manipulates RGB colors as triples of floats; the
embedding idealises float arithmetic by exact rationals (`ℚ`), the standard
idealisation for the spec's exact-arithmetic claims.  State held by the host
(scene properties, mesh faces, selection flags, color-attribute layers) is
embedded as an explicit `Scene` record, and each Blender operator becomes a
function from `Scene` (plus its event/argument inputs) to a result status,
an optional reported message and an updated `Scene`.
-/

/-- An RGB triple.  The Python code passes colors as 3- or 4-tuples and
truncates with `[:3]` before any arithmetic; the embedding works with the
three retained components. -/
abbrev RGB : Type := ℚ × ℚ × ℚ

/-- Module-level constant `VC_SELECTOR_THRESHOLD = 0.01` (line 78 of the
source). -/
def VC_SELECTOR_THRESHOLD : ℚ := 1 / 100

/-- The sum of squared channel differences computed inside `color_close`:
`sum((float(a) - float(b)) ** 2 for a, b in zip(c1[:3], c2[:3]))`. -/
def dist2 (c1 c2 : RGB) : ℚ :=
  (c1.1 - c2.1) ^ 2 + (c1.2.1 - c2.2.1) ^ 2 + (c1.2.2 - c2.2.2) ^ 2

/-- `color_close(c1, c2, threshold)` (source lines 89–91): the code computes
`dist = (sum of squared differences) ** 0.5` and returns `dist < threshold`.
Since the square root is nonnegative, `sqrt s < t` holds exactly when
`0 < t` and `s < t ^ 2`; the embedding uses this square-root-free form so the
function is decidable; the development proves this form equivalent to the
literal `Real.sqrt` comparison.  The Python default `threshold=0.01` is
passed explicitly at every call site of the embedding. -/
def color_close (c1 c2 : RGB) (threshold : ℚ) : Bool :=
  decide (0 < threshold ∧ dist2 c1 c2 < threshold ^ 2)

/-- Python's `round` ties-to-even on the value scaled to integer position:
`roundHalfEven q` is the nearest integer to `q`, with exact halves resolved
to the even neighbour. -/
def roundHalfEven (q : ℚ) : ℤ :=
  if q - ⌊q⌋ < 1 / 2 then ⌊q⌋
  else if 1 / 2 < q - ⌊q⌋ then ⌊q⌋ + 1
  else if ⌊q⌋ % 2 = 0 then ⌊q⌋ else ⌊q⌋ + 1

/-- `round(x, 4)` from the Python source: round to 4 decimal places
(idealised over ℚ with Python's ties-to-even rule). -/
def round4 (q : ℚ) : ℚ := (roundHalfEven (q * 10000) : ℚ) / 10000

/-- The arithmetic mean of a list of rationals (spec-side notion used to
state the averaging claims; `[].sum / [].length = 0 / 0 = 0` is never hit by
the operators, which only average nonempty corner lists). -/
def mean (xs : List ℚ) : ℚ := xs.sum / xs.length

/-- The per-face representative color, as computed identically in the three
operators (source lines 158–159, 208–209, 260–261 and the matching loops of
the modal picker):
`tuple(round(sum(c[i] for c in colors)/len(colors), 4) for i in range(3))`. -/
def face_avg (colors : List RGB) : RGB :=
  (round4 ((colors.map fun c => c.1).sum / colors.length),
   round4 ((colors.map fun c => c.2.1).sum / colors.length),
   round4 ((colors.map fun c => c.2.2).sum / colors.length))

/-- The unrounded average used as the picked color in the modal picker
(source line 642):
`tuple(sum(c[i] for c in colors) / len(colors) for i in range(3))`. -/
def avg_color (colors : List RGB) : RGB :=
  ((colors.map fun c => c.1).sum / colors.length,
   (colors.map fun c => c.2.1).sum / colors.length,
   (colors.map fun c => c.2.2).sum / colors.length)

/-- `dist2` is symmetric in its two arguments. -/
theorem dist2_comm (a b : RGB) : dist2 a b = dist2 b a := by
  unfold dist2; ring

/-- `dist2` is a sum of squares, hence nonnegative. -/
theorem dist2_nonneg (a b : RGB) : 0 ≤ dist2 a b := by
  unfold dist2; positivity

/-- C1: `color_close` is symmetric, and it returns `true` exactly when the
Euclidean distance (the real square root of the sum of squared differences
of the three components) is strictly less than the threshold. -/
theorem color_close_symm_and_euclidean (a b : RGB) (t : ℚ) :
    color_close a b t = color_close b a t ∧
      (color_close a b t = true ↔ Real.sqrt ((dist2 a b : ℚ) : ℝ) < (t : ℝ)) := by
  constructor
  · unfold color_close
    rw [dist2_comm]
  · unfold color_close
    simp only [decide_eq_true_eq]
    constructor
    · rintro ⟨ht, hd⟩
      have ht' : (0 : ℝ) < (t : ℝ) := by exact_mod_cast ht
      rw [Real.sqrt_lt' ht']
      exact_mod_cast hd
    · intro h
      have hnn : (0 : ℝ) ≤ Real.sqrt ((dist2 a b : ℚ) : ℝ) := Real.sqrt_nonneg _
      have ht' : (0 : ℝ) < (t : ℝ) := lt_of_le_of_lt hnn h
      have ht : 0 < t := by exact_mod_cast ht'
      refine ⟨ht, ?_⟩
      rw [Real.sqrt_lt' ht'] at h
      exact_mod_cast h

/-- Rounding to the nearest integer moves a value by at most one half. -/
theorem abs_roundHalfEven_sub (q : ℚ) : |(roundHalfEven q : ℚ) - q| ≤ 1 / 2 := by
  have h1 : ((⌊q⌋ : ℤ) : ℚ) ≤ q := Int.floor_le q
  have h2 : q < ((⌊q⌋ : ℤ) : ℚ) + 1 := Int.lt_floor_add_one q
  unfold roundHalfEven
  split_ifs with hlt hgt heven <;>
    · rw [abs_le]
      constructor <;> push_cast <;> linarith

/-- Rounding to 4 decimal places moves a value by at most `0.00005`. -/
theorem abs_round4_sub (q : ℚ) : |round4 q - q| ≤ 1 / 20000 := by
  have h := abs_roundHalfEven_sub (q * 10000)
  unfold round4
  have heq : (roundHalfEven (q * 10000) : ℚ) / 10000 - q =
      ((roundHalfEven (q * 10000) : ℚ) - q * 10000) / 10000 := by ring
  rw [heq, abs_div]
  have h10 : |(10000 : ℚ)| = 10000 := by norm_num
  rw [h10]
  linarith

/-- A rational that is an exact multiple of `1/10000` is unchanged by
`round4`. -/
theorem round4_eq_self (q : ℚ) (n : ℤ) (h : q * 10000 = (n : ℚ)) :
    round4 q = q := by
  unfold round4 roundHalfEven
  rw [h, Int.floor_intCast]
  simp only [sub_self]
  norm_num
  linarith

/-- C4: with the default threshold 0.01, `(0.50, 0.50, 0.50)` is judged close
to `(0.505, 0.505, 0.505)` and not close to `(0.60, 0.50, 0.50)`. -/
theorem color_close_examples :
    color_close (1/2, 1/2, 1/2) (101/200, 101/200, 101/200) (1/100) = true ∧
      color_close (1/2, 1/2, 1/2) (3/5, 1/2, 1/2) (1/100) = false := by
  constructor
  · simp only [color_close, dist2, decide_eq_true_eq]
    norm_num
  · simp only [color_close, dist2, decide_eq_false_iff_not]
    push_neg
    intro _
    norm_num

/-- C2: the representative face color computed by the operators (the shared
`face_avg` routine of the Find-Face-Colors, Select-Faces-By-Face-Color and
Select-This-Color loops) is the component-wise arithmetic mean of the corner
colors, rounded to 4 decimal places per channel. -/
theorem face_avg_eq_round4_mean (colors : List RGB) (hne : colors ≠ []) :
    face_avg colors =
      (round4 (mean (colors.map fun c => c.1)),
       round4 (mean (colors.map fun c => c.2.1)),
       round4 (mean (colors.map fun c => c.2.2))) := by
  unfold face_avg mean
  simp [List.length_map]

/-- Witness for C2 at the single-corner face `[(1/2, 1/3, 1/4)]`. -/
theorem face_avg_eq_round4_mean_witness :
    ([((1:ℚ)/2, (1:ℚ)/3, (1:ℚ)/4)] : List RGB) ≠ [] ∧
      face_avg [((1:ℚ)/2, (1:ℚ)/3, (1:ℚ)/4)] =
        (round4 (mean [(1:ℚ)/2]), round4 (mean [(1:ℚ)/3]),
         round4 (mean [(1:ℚ)/4])) := by
  refine ⟨by simp, ?_⟩
  have h := face_avg_eq_round4_mean [((1:ℚ)/2, (1:ℚ)/3, (1:ℚ)/4)] (by simp)
  simpa using h

/-- C5: the computed face average is invariant under permutation of the
corner colors, and each channel of it is within `0.00005` (the worst-case
4-decimal rounding error) of the exact arithmetic mean of that channel. -/
theorem face_avg_perm_invariant_and_near_mean (l l' : List RGB)
    (hp : l.Perm l') (hne : l ≠ []) :
    face_avg l = face_avg l' ∧
      |(face_avg l).1 - mean (l.map fun c => c.1)| ≤ 1 / 20000 ∧
      |(face_avg l).2.1 - mean (l.map fun c => c.2.1)| ≤ 1 / 20000 ∧
      |(face_avg l).2.2 - mean (l.map fun c => c.2.2)| ≤ 1 / 20000 := by
  refine ⟨?_, ?_, ?_, ?_⟩
  · unfold face_avg
    rw [(hp.map fun c => c.1).sum_eq, (hp.map fun c => c.2.1).sum_eq,
      (hp.map fun c => c.2.2).sum_eq, hp.length_eq]
  · unfold face_avg mean
    simpa [List.length_map] using
      abs_round4_sub ((l.map fun c => c.1).sum / l.length)
  · unfold face_avg mean
    simpa [List.length_map] using
      abs_round4_sub ((l.map fun c => c.2.1).sum / l.length)
  · unfold face_avg mean
    simpa [List.length_map] using
      abs_round4_sub ((l.map fun c => c.2.2).sum / l.length)

/-- Witness for C5 at the two-corner face `[(0,0,0), (1,1,1)]` against its
reversal. -/
theorem face_avg_perm_invariant_witness :
    ([((0:ℚ),(0:ℚ),(0:ℚ)), ((1:ℚ),(1:ℚ),(1:ℚ))] : List RGB).Perm
        [((1:ℚ),(1:ℚ),(1:ℚ)), ((0:ℚ),(0:ℚ),(0:ℚ))] ∧
      ([((0:ℚ),(0:ℚ),(0:ℚ)), ((1:ℚ),(1:ℚ),(1:ℚ))] : List RGB) ≠ [] ∧
      face_avg [((0:ℚ),(0:ℚ),(0:ℚ)), ((1:ℚ),(1:ℚ),(1:ℚ))] =
        face_avg [((1:ℚ),(1:ℚ),(1:ℚ)), ((0:ℚ),(0:ℚ),(0:ℚ))] := by
  refine ⟨List.Perm.swap _ _ _, by simp, ?_⟩
  exact (face_avg_perm_invariant_and_near_mean _ _ (List.Perm.swap _ _ _)
    (by simp)).1

/-- Operator return statuses (`{'FINISHED'}`, `{'CANCELLED'}`,
`{'RUNNING_MODAL'}`). -/
inductive Status where
  | FINISHED : Status
  | CANCELLED : Status
  | RUNNING_MODAL : Status
deriving DecidableEq

/-- The host state the add-on reads and mutates: Blender context/object
modes, the scene's `vc_selector` property group, the mesh's color-attribute
tables and the faces themselves.  A face is a pair of its selection flag and
its list of corner colors (`loop[color_layer][:3]` respectively
`color_layer.data[li].color[:3]`); the embedding uses one face list for both
the bmesh faces and the `mesh.polygons`, which the host keeps in sync. -/
structure Scene where
  context_mode : String
  obj_mode : String
  obj_is_mesh : Bool
  color_attribute : String
  mesh_attrs : List (String × String)
  mesh_id : String
  last_mesh_id : String
  bmesh_layers : List String
  vertex_colors : List String
  faces : List (Bool × List RGB)
  color_previews : List (String × RGB)
  face_colors_value : RGB

/-- What an operator call produces: a status, the message passed to
`self.report` on the taken path (if any), and the updated host state. -/
structure OpOut where
  status : Status
  report : Option String
  scene : Scene

/-- `obj.data.color_attributes.get(name)` over the embedded attribute table,
returning the attribute's domain. -/
def attrLookup (name : String) : List (String × String) → Option String
  | [] => none
  | (n, d) :: rest => if n = name then some d else attrLookup name rest

/-- The color-collecting loop of `VERTEXCOLOR_OT_find_face_colors.execute`
(source lines 153–167): walk the faces; skip a face whose rounded average is
already in `seen_colors`; otherwise record `(label, avg)` with label
`Col_{idx}` and increment `idx`. -/
def findLoop (seen : List RGB) (idx : ℕ) : List (List RGB) → List (String × RGB)
  | [] => []
  | cs :: rest =>
    let avg := face_avg cs
    if avg ∈ seen then findLoop seen idx rest
    else ("Col_" ++ toString idx, avg) :: findLoop (avg :: seen) (idx + 1) rest

/-- The per-face selection update of `VERTEXCOLOR_OT_select_this_color`
(source lines 262–268) and of the modal picker's selection loops (lines
660–666, 678–684): a matching face is deselected under ctrl and selected
otherwise; a non-matching face is deselected when neither shift nor ctrl is
held and left untouched otherwise. -/
def applySelect (close ctrl shift prev : Bool) : Bool :=
  if close then (if ctrl then false else true)
  else if !shift && !ctrl then false
  else prev

/-- The face loop shared by `select_this_color` and the picker: recompute
each face's rounded average and update its selection flag. -/
def selectLoop (faces : List (Bool × List RGB)) (target : RGB) (threshold : ℚ)
    (shift ctrl : Bool) : List (Bool × List RGB) :=
  faces.map fun f =>
    (applySelect (color_close (face_avg f.2) target threshold) ctrl shift f.1, f.2)

/-- `VERTEXCOLOR_OT_select_this_color.execute` (source lines 238–289), with
the `shift`/`ctrl` flags captured by `invoke`.  The local
`threshold = 0.01` of line 248 appears as the literal `1/100`. -/
def select_this_color (s : Scene) (target : RGB) (shift ctrl : Bool) : OpOut :=
  if s.color_attribute = "" ∨ s.color_attribute = "NONE" then
    ⟨Status.CANCELLED, some "No color attribute selected!", s⟩
  else if s.obj_mode = "EDIT" then
    if s.color_attribute ∉ s.bmesh_layers then
      ⟨Status.CANCELLED, some "No vertex color layer found", s⟩
    else
      ⟨Status.FINISHED, none,
        { s with faces := selectLoop s.faces target (1/100) shift ctrl }⟩
  else if s.obj_mode = "VERTEX_PAINT" ∨ s.obj_mode = "WEIGHT_PAINT" ∨
      s.obj_mode = "TEXTURE_PAINT" then
    if s.color_attribute ∉ s.vertex_colors then
      ⟨Status.CANCELLED, some "No vertex color layer found", s⟩
    else
      ⟨Status.FINISHED, none,
        { s with faces := selectLoop s.faces target (1/100) shift ctrl }⟩
  else
    ⟨Status.CANCELLED, some "Unsupported mode (Only Edit/Vertex Paint supported)", s⟩

/-- `VERTEXCOLOR_OT_select_faces_by_face_color.execute` (source lines
188–225): each face's selection flag is set to the match verdict outright
(`face.select_set(color_close(...))`); the target is the evaluated enum value
and the local `threshold = 0.01` of line 199 appears as the literal
`1/100`.  Caveat on the target: line 198 runs
`eval(scene.vc_selector.face_colors)`, but that PropertyGroup enum is
declared with `items=[]` and never repopulated (line 169 writes the
different Scene attribute `vc_selector_face_colors`), so in the program the
enum value is the empty string and the `eval` raises `SyntaxError`; the
embedding models the intended evaluated target as the `face_colors_value`
state field, collapsing that crash path. -/
def select_faces_by_face_color (s : Scene) : OpOut :=
  if s.color_attribute = "" ∨ s.color_attribute = "NONE" then
    ⟨Status.CANCELLED, some "No color attribute selected!", s⟩
  else if s.obj_mode = "EDIT" then
    if s.color_attribute ∉ s.bmesh_layers then
      ⟨Status.CANCELLED, some "No vertex color layer found", s⟩
    else
      ⟨Status.FINISHED, none,
        { s with faces := s.faces.map fun f =>
            (color_close (face_avg f.2) s.face_colors_value (1/100), f.2) }⟩
  else if s.obj_mode = "VERTEX_PAINT" ∨ s.obj_mode = "WEIGHT_PAINT" ∨
      s.obj_mode = "TEXTURE_PAINT" then
    if s.color_attribute ∉ s.vertex_colors then
      ⟨Status.CANCELLED, some "No vertex color layer found", s⟩
    else
      ⟨Status.FINISHED, none,
        { s with faces := s.faces.map fun f =>
            (color_close (face_avg f.2) s.face_colors_value (1/100), f.2) }⟩
  else
    ⟨Status.CANCELLED,
      some "Unsupported mode (Only Edit/Vertex/Weight/Texture Paint supported)", s⟩

/-- The fields of the host's window-manager event read by the picker. -/
structure Event where
  type : String
  value : String
  shift : Bool
  ctrl : Bool

/-- The picked-face color gathering of `VCS_OT_pick_vertex_color.modal`
(source lines 604–636): in Edit mode, bounds-check the ray-cast face index
against the bmesh and fetch the loop colors from the bmesh layer; otherwise
bounds-check against `mesh.polygons` and fetch from
`mesh.vertex_colors.get(name) or mesh.color_attributes.get(name)`, rejecting
an empty data array and a non-CORNER domain (the domain attribute only
exists on `color_attributes` layers, so that check fires only when the name
is absent from `vertex_colors`).  The `hasattr(..., "color")` type guard and
the `loop_indices` bounds guard cannot fire in the embedded state, where a
face's corner colors are stored on the face itself. -/
def pick_face_colors (s : Scene) (i : ℕ) : Except String (List RGB) :=
  if s.obj_mode = "EDIT" then
    if i ≥ s.faces.length then Except.error "Face index out of range in bmesh"
    else if s.color_attribute ∉ s.bmesh_layers then
      Except.error "No vertex color layer found in bmesh"
    else Except.ok (s.faces.getD i (false, [])).2
  else
    if i ≥ s.faces.length then Except.error "Face index out of range in mesh"
    else if s.color_attribute ∉ s.vertex_colors ∧
        attrLookup s.color_attribute s.mesh_attrs = none then
      Except.error "No vertex color layer found or layer has no data"
    else if (s.faces.map fun f => f.2.length).sum = 0 then
      Except.error "No vertex color layer found or layer has no data"
    else if s.color_attribute ∉ s.vertex_colors ∧
        attrLookup s.color_attribute s.mesh_attrs ≠ some "CORNER" then
      Except.error "Color attribute domain must be CORNER"
    else Except.ok (s.faces.getD i (false, [])).2

/-- `VCS_OT_pick_vertex_color.modal` (source lines 564–689).  Escape and
right-click cancel; a left-click press ray-casts (the ray-cast outcome is
the `hit`/`face_index` input), gathers the picked face's corner colors,
takes their unrounded average as the picked color, resolves the modifier
flags (the event's own flags win when either is down, else the flags
captured at `invoke`), and runs the same match-and-select loop as
`select_this_color` with threshold `VC_SELECTOR_THRESHOLD`; every other
event keeps the modal running.  Header text, cursor shape and the
`self.color` operator property are host UI state outside the embedded
scene. -/
def pick_modal (s : Scene) (ev : Event) (inv_shift inv_ctrl : Bool)
    (hit : Bool) (face_index : ℤ) : OpOut :=
  if ev.type = "RIGHTMOUSE" ∨ ev.type = "ESC" then
    ⟨Status.CANCELLED, some "Pick cancelled", s⟩
  else if ev.type = "LEFTMOUSE" ∧ ev.value = "PRESS" then
    if s.obj_is_mesh = false then
      ⟨Status.CANCELLED, some "No mesh object selected", s⟩
    else if hit = false ∨ face_index < 0 then
      ⟨Status.CANCELLED, some "No face under cursor or face index out of range", s⟩
    else if s.color_attribute = "" ∨ s.color_attribute = "NONE" then
      ⟨Status.CANCELLED, some "No color attribute selected!", s⟩
    else
      match pick_face_colors s face_index.toNat with
      | Except.error msg => ⟨Status.CANCELLED, some msg, s⟩
      | Except.ok colors =>
        if colors = [] then
          ⟨Status.CANCELLED, some "No color data found for this face", s⟩
        else
          let avg := avg_color colors
          let shift := if ev.shift || ev.ctrl then ev.shift else inv_shift
          let ctrl := if ev.shift || ev.ctrl then ev.ctrl else inv_ctrl
          if s.obj_mode = "EDIT" then
            if s.color_attribute ∉ s.bmesh_layers then
              ⟨Status.CANCELLED, some "No vertex color layer found", s⟩
            else
              ⟨Status.FINISHED, none,
                { s with faces :=
                    selectLoop s.faces avg VC_SELECTOR_THRESHOLD shift ctrl }⟩
          else
            if s.color_attribute ∉ s.vertex_colors ∧
                attrLookup s.color_attribute s.mesh_attrs = none then
              ⟨Status.CANCELLED, some "No vertex color layer found", s⟩
            else
              ⟨Status.FINISHED, none,
                { s with faces :=
                    selectLoop s.faces avg VC_SELECTOR_THRESHOLD shift ctrl }⟩
  else
    ⟨Status.RUNNING_MODAL, none, s⟩

/-- `getD` through a `map`, at an in-range index. -/
theorem map_getD_of_lt {α β : Type} (f : α → β) (l : List α) (i : ℕ)
    (hi : i < l.length) (dA : α) (dB : β) :
    (l.map f).getD i dB = f (l.getD i dA) := by
  rw [List.getD_eq_getElem?_getD, List.getElem?_map, List.getElem?_eq_getElem hi,
    List.getD_eq_getElem?_getD, List.getElem?_eq_getElem hi]
  rfl

/-- With no modifier, the per-face update replaces the flag by the match
verdict. -/
theorem applySelect_replace (close prev : Bool) :
    applySelect close false false prev = close := by
  cases close <;> rfl

/-- With shift only, the per-face update selects matches and keeps the rest. -/
theorem applySelect_add (close prev : Bool) :
    applySelect close false true prev = (close || prev) := by
  cases close <;> cases prev <;> rfl

/-- With ctrl, the per-face update deselects matches and keeps the rest. -/
theorem applySelect_subtract (close shift prev : Bool) :
    applySelect close true shift prev = (!close && prev) := by
  cases close <;> cases shift <;> cases prev <;> rfl

/-- `selectLoop` at an in-range index. -/
theorem selectLoop_getD (faces : List (Bool × List RGB)) (target : RGB)
    (threshold : ℚ) (shift ctrl : Bool) (i : ℕ) (hi : i < faces.length) :
    (selectLoop faces target threshold shift ctrl).getD i (false, []) =
      (applySelect (color_close (face_avg (faces.getD i (false, [])).2) target
          threshold) ctrl shift (faces.getD i (false, [])).1,
        (faces.getD i (false, [])).2) := by
  unfold selectLoop
  rw [map_getD_of_lt _ _ _ hi (false, [])]

/-- C3: when `select_this_color` finishes, each face's new selection flag
follows the modifier semantics: no modifier replaces the selection with the
matches, shift alone adds the matches to the previous selection, and ctrl
removes the matches from the previous selection. -/
theorem select_this_color_modifier_semantics (s : Scene) (target : RGB)
    (shift ctrl : Bool) (i : ℕ)
    (hfin : (select_this_color s target shift ctrl).status = Status.FINISHED)
    (hi : i < s.faces.length) :
    ((shift = false ∧ ctrl = false →
        ((select_this_color s target shift ctrl).scene.faces.getD i
            (false, [])).1 =
          color_close (face_avg (s.faces.getD i (false, [])).2) target
            (1/100)) ∧
      (shift = true ∧ ctrl = false →
        ((select_this_color s target shift ctrl).scene.faces.getD i
            (false, [])).1 =
          (color_close (face_avg (s.faces.getD i (false, [])).2) target
              (1/100) ||
            (s.faces.getD i (false, [])).1)) ∧
      (ctrl = true →
        ((select_this_color s target shift ctrl).scene.faces.getD i
            (false, [])).1 =
          (!color_close (face_avg (s.faces.getD i (false, [])).2) target
              (1/100) &&
            (s.faces.getD i (false, [])).1))) := by
  unfold select_this_color at hfin ⊢
  split_ifs at hfin ⊢ <;> try simp at hfin
  all_goals
    dsimp only
    refine ⟨fun h => ?_, fun h => ?_, fun hc => ?_⟩
    · obtain ⟨hs, hc⟩ := h
      subst hs; subst hc
      rw [selectLoop_getD s.faces target (1/100) false false i hi]
      dsimp only
      rw [applySelect_replace]
    · obtain ⟨hs, hc⟩ := h
      subst hs; subst hc
      rw [selectLoop_getD s.faces target (1/100) true false i hi]
      dsimp only
      rw [applySelect_add]
    · subst hc
      rw [selectLoop_getD s.faces target (1/100) shift true i hi]
      dsimp only
      rw [applySelect_subtract]

/-- A concrete well-formed Edit-mode scene with one unselected black face,
used to instantiate the operator theorems. -/
def edScene : Scene :=
  ⟨"EDIT_MESH", "EDIT", true, "Col", [("Col", "CORNER")], "m", "m", ["Col"],
    [], [(false, [((0:ℚ), (0:ℚ), (0:ℚ))])], [], ((0:ℚ), (0:ℚ), (0:ℚ))⟩

/-- Witness for C3 at `edScene`, plain click on black. -/
theorem select_this_color_modifier_semantics_witness :
    (select_this_color edScene ((0:ℚ), (0:ℚ), (0:ℚ)) false false).status =
        Status.FINISHED ∧
      0 < edScene.faces.length ∧
      ((false = false ∧ false = false →
          ((select_this_color edScene ((0:ℚ), (0:ℚ), (0:ℚ)) false
                  false).scene.faces.getD 0 (false, [])).1 =
            color_close (face_avg (edScene.faces.getD 0 (false, [])).2)
              ((0:ℚ), (0:ℚ), (0:ℚ)) (1/100)) ∧
        (false = true ∧ false = false →
          ((select_this_color edScene ((0:ℚ), (0:ℚ), (0:ℚ)) false
                  false).scene.faces.getD 0 (false, [])).1 =
            (color_close (face_avg (edScene.faces.getD 0 (false, [])).2)
                ((0:ℚ), (0:ℚ), (0:ℚ)) (1/100) ||
              (edScene.faces.getD 0 (false, [])).1)) ∧
        (false = true →
          ((select_this_color edScene ((0:ℚ), (0:ℚ), (0:ℚ)) false
                  false).scene.faces.getD 0 (false, [])).1 =
            (!color_close (face_avg (edScene.faces.getD 0 (false, [])).2)
                ((0:ℚ), (0:ℚ), (0:ℚ)) (1/100) &&
              (edScene.faces.getD 0 (false, [])).1))) := by
  have hfin : (select_this_color edScene ((0:ℚ), (0:ℚ), (0:ℚ)) false
      false).status = Status.FINISHED := by
    simp [select_this_color, edScene]
  have hi : 0 < edScene.faces.length := by simp [edScene]
  exact ⟨hfin, hi,
    select_this_color_modifier_semantics edScene ((0:ℚ), (0:ℚ), (0:ℚ))
      false false 0 hfin hi⟩

/-- Specification-side variant of `select_this_color` in which the matching
threshold is an input, stated from the spec's words that the threshold is
configurable; compared against the source embedding for claim C6. -/
def select_this_color_param (s : Scene) (target : RGB) (threshold : ℚ)
    (shift ctrl : Bool) : OpOut :=
  if s.color_attribute = "" ∨ s.color_attribute = "NONE" then
    ⟨Status.CANCELLED, some "No color attribute selected!", s⟩
  else if s.obj_mode = "EDIT" then
    if s.color_attribute ∉ s.bmesh_layers then
      ⟨Status.CANCELLED, some "No vertex color layer found", s⟩
    else
      ⟨Status.FINISHED, none,
        { s with faces := selectLoop s.faces target threshold shift ctrl }⟩
  else if s.obj_mode = "VERTEX_PAINT" ∨ s.obj_mode = "WEIGHT_PAINT" ∨
      s.obj_mode = "TEXTURE_PAINT" then
    if s.color_attribute ∉ s.vertex_colors then
      ⟨Status.CANCELLED, some "No vertex color layer found", s⟩
    else
      ⟨Status.FINISHED, none,
        { s with faces := selectLoop s.faces target threshold shift ctrl }⟩
  else
    ⟨Status.CANCELLED, some "Unsupported mode (Only Edit/Vertex Paint supported)", s⟩

/-- Specification-side variant of `select_faces_by_face_color` with the
threshold as an input, for claim C6. -/
def select_faces_by_face_color_param (s : Scene) (threshold : ℚ) : OpOut :=
  if s.color_attribute = "" ∨ s.color_attribute = "NONE" then
    ⟨Status.CANCELLED, some "No color attribute selected!", s⟩
  else if s.obj_mode = "EDIT" then
    if s.color_attribute ∉ s.bmesh_layers then
      ⟨Status.CANCELLED, some "No vertex color layer found", s⟩
    else
      ⟨Status.FINISHED, none,
        { s with faces := s.faces.map fun f =>
            (color_close (face_avg f.2) s.face_colors_value threshold, f.2) }⟩
  else if s.obj_mode = "VERTEX_PAINT" ∨ s.obj_mode = "WEIGHT_PAINT" ∨
      s.obj_mode = "TEXTURE_PAINT" then
    if s.color_attribute ∉ s.vertex_colors then
      ⟨Status.CANCELLED, some "No vertex color layer found", s⟩
    else
      ⟨Status.FINISHED, none,
        { s with faces := s.faces.map fun f =>
            (color_close (face_avg f.2) s.face_colors_value threshold, f.2) }⟩
  else
    ⟨Status.CANCELLED,
      some "Unsupported mode (Only Edit/Vertex/Weight/Texture Paint supported)", s⟩

/-- Counterexample to C6: the selection outcome is pinned to threshold 0.01;
no input available to the user makes the operator behave like any other
threshold.  Concretely, clicking the color `(0.5, 0, 0)` on a black face
selects nothing, while a threshold of `1` — were it configurable — would
select the face. -/
theorem threshold_not_configurable :
    ((select_this_color edScene ((1:ℚ)/2, (0:ℚ), (0:ℚ)) false
          false).scene.faces.getD 0 (false, [])).1 = false ∧
      ((select_this_color_param edScene ((1:ℚ)/2, (0:ℚ), (0:ℚ)) 1 false
          false).scene.faces.getD 0 (false, [])).1 = true := by
  have h0 : round4 (0:ℚ) = 0 := round4_eq_self 0 0 (by norm_num)
  constructor
  · simp only [select_this_color, edScene]
    simp [selectLoop, applySelect, color_close, face_avg, dist2, h0,
      decide_eq_false_iff_not]
    norm_num
  · simp only [select_this_color_param, edScene]
    simp [selectLoop, applySelect, color_close, face_avg, dist2, h0,
      decide_eq_true_eq]
    norm_num

/-- C6 amended: the Euclidean-distance threshold is the fixed constant
`VC_SELECTOR_THRESHOLD = 0.01`; the selection operators always behave as the
threshold-parameterised variants applied at that constant, and no user input
reaches the threshold. -/
theorem threshold_fixed (s : Scene) (target : RGB) (shift ctrl : Bool) :
    VC_SELECTOR_THRESHOLD = 1 / 100 ∧
      select_this_color s target shift ctrl =
        select_this_color_param s target VC_SELECTOR_THRESHOLD shift ctrl ∧
      select_faces_by_face_color s =
        select_faces_by_face_color_param s VC_SELECTOR_THRESHOLD := by
  exact ⟨rfl, rfl, rfl⟩

/-- C8: the modal picker cancels on every escape/right-mouse event, ends in
a finished or cancelled status on every left-click press, and on any other
event keeps running without touching the scene. -/
theorem pick_modal_event_protocol (s : Scene) (ev : Event)
    (inv_shift inv_ctrl hit : Bool) (fi : ℤ) :
    ((ev.type = "RIGHTMOUSE" ∨ ev.type = "ESC") →
        (pick_modal s ev inv_shift inv_ctrl hit fi).status =
          Status.CANCELLED) ∧
      (ev.type = "LEFTMOUSE" ∧ ev.value = "PRESS" →
        (pick_modal s ev inv_shift inv_ctrl hit fi).status =
            Status.FINISHED ∨
          (pick_modal s ev inv_shift inv_ctrl hit fi).status =
            Status.CANCELLED) ∧
      (¬(ev.type = "RIGHTMOUSE" ∨ ev.type = "ESC") →
        ¬(ev.type = "LEFTMOUSE" ∧ ev.value = "PRESS") →
        (pick_modal s ev inv_shift inv_ctrl hit fi).status =
            Status.RUNNING_MODAL ∧
          (pick_modal s ev inv_shift inv_ctrl hit fi).scene = s) := by
  refine ⟨?_, ?_, ?_⟩
  · intro hesc
    unfold pick_modal
    rw [if_pos hesc]
  · intro hlm
    have hne : ¬(ev.type = "RIGHTMOUSE" ∨ ev.type = "ESC") := by
      rw [hlm.1]; simp
    unfold pick_modal
    rw [if_neg hne, if_pos hlm]
    rcases hml : pick_face_colors s fi.toNat with msg | colors <;>
      dsimp only <;> split_ifs <;>
        first
          | exact Or.inl rfl
          | exact Or.inr rfl
  · intro h1 h2
    unfold pick_modal
    rw [if_neg h1, if_neg h2]
    exact ⟨rfl, rfl⟩

/-- Witness for C8: an escape event at `edScene` cancels the pick. -/
theorem pick_modal_event_protocol_witness :
    (pick_modal edScene ⟨"ESC", "NOTHING", false, false⟩ false false true
        0).status = Status.CANCELLED :=
  (pick_modal_event_protocol edScene ⟨"ESC", "NOTHING", false, false⟩ false
      false true 0).1 (Or.inr rfl)

/-- A successful picked-face color gathering implies the face index was in
range and the gathered colors are that face's corner colors. -/
theorem pick_face_colors_ok (s : Scene) (i : ℕ) (colors : List RGB)
    (h : pick_face_colors s i = Except.ok colors) :
    i < s.faces.length ∧ colors = (s.faces.getD i (false, [])).2 := by
  unfold pick_face_colors at h
  split_ifs at h <;> injection h with h' <;> exact ⟨by omega, h'.symm⟩

/-- The rounded face average is always within the 0.01 threshold of the
unrounded average of the same corner colors: per channel the two differ by
at most `0.00005`, so the squared Euclidean distance is at most
`3 * 0.00005 ^ 2 < 0.01 ^ 2`. -/
theorem color_close_face_avg_avg_color (colors : List RGB) :
    color_close (face_avg colors) (avg_color colors) VC_SELECTOR_THRESHOLD =
      true := by
  unfold color_close VC_SELECTOR_THRESHOLD
  rw [decide_eq_true_eq]
  constructor
  · norm_num
  · unfold dist2 face_avg avg_color
    dsimp only
    have b1 := abs_le.mp
      (abs_round4_sub ((colors.map fun c => c.1).sum / colors.length))
    have b2 := abs_le.mp
      (abs_round4_sub ((colors.map fun c => c.2.1).sum / colors.length))
    have b3 := abs_le.mp
      (abs_round4_sub ((colors.map fun c => c.2.2).sum / colors.length))
    have s1 := sq_le_sq' b1.1 b1.2
    have s2 := sq_le_sq' b2.1 b2.2
    have s3 := sq_le_sq' b3.1 b3.2
    have hnum : (3:ℚ) * (1/20000)^2 < (1/100)^2 := by norm_num
    linarith

set_option maxHeartbeats 1000000 in
/-- C9: when a pick succeeds with the subtract modifier resolved off, the
face under the cursor ends up selected: the picker compares every face's
rounded average against the picked face's unrounded average, and the
rounding moves each channel by at most `0.00005`, keeping the picked face
within the 0.01 threshold of its own unrounded average. -/
theorem pick_selects_picked_face (s : Scene) (ev : Event)
    (inv_shift inv_ctrl hit : Bool) (fi : ℤ)
    (hev : ev.type = "LEFTMOUSE" ∧ ev.value = "PRESS")
    (hctrl : (if ev.shift || ev.ctrl then ev.ctrl else inv_ctrl) = false)
    (hfin : (pick_modal s ev inv_shift inv_ctrl hit fi).status =
      Status.FINISHED) :
    ((pick_modal s ev inv_shift inv_ctrl hit fi).scene.faces.getD fi.toNat
        (false, [])).1 = true := by
  have hne : ¬(ev.type = "RIGHTMOUSE" ∨ ev.type = "ESC") := by
    rw [hev.1]; simp
  unfold pick_modal at hfin ⊢
  rw [if_neg hne, if_pos hev] at hfin ⊢
  rcases hml : pick_face_colors s fi.toNat with msg | colors <;>
    rw [hml] at hfin <;> dsimp only at hfin ⊢ <;> split_ifs at hfin ⊢ <;>
      try exact absurd hfin (by decide)
  all_goals {
    rename_i hcond
    have hctrl2 : (if (ev.shift || ev.ctrl) = true then ev.ctrl
        else inv_ctrl) = false := hctrl
    first
      | rw [if_pos hcond] at hctrl2
      | rw [if_neg hcond] at hctrl2
    obtain ⟨hlen, hcol⟩ := pick_face_colors_ok s fi.toNat colors hml
    dsimp only
    rw [selectLoop_getD _ _ _ _ _ _ hlen]
    dsimp only
    rw [← hcol, color_close_face_avg_avg_color colors, hctrl2]
    rfl
  }

/-- Witness for C9: picking the single black face of `edScene` finishes and
leaves that face selected. -/
theorem pick_selects_picked_face_witness :
    (pick_modal edScene ⟨"LEFTMOUSE", "PRESS", false, false⟩ false false true
        0).status = Status.FINISHED ∧
      ((pick_modal edScene ⟨"LEFTMOUSE", "PRESS", false, false⟩ false false
          true 0).scene.faces.getD ((0:ℤ).toNat) (false, [])).1 = true := by
  have hfin : (pick_modal edScene ⟨"LEFTMOUSE", "PRESS", false, false⟩ false
      false true 0).status = Status.FINISHED := by
    simp [pick_modal, pick_face_colors, edScene]
  exact ⟨hfin,
    pick_selects_picked_face edScene ⟨"LEFTMOUSE", "PRESS", false, false⟩
      false false true 0 ⟨rfl, rfl⟩ rfl hfin⟩

/-- Specification-side first-occurrence deduplication: scan the list left to
right and append each color not seen before. -/
def firstOccur (l : List RGB) : List RGB :=
  l.foldl (fun acc c => if c ∈ acc then acc else acc ++ [c]) []

/-- The find loop computes first-occurrence deduplication: folding the
rounded averages into an accumulator whose membership agrees with
`seen_colors` extends the accumulator by exactly the loop's colors. -/
theorem foldl_firstOccur_findLoop (l : List (List RGB)) :
    ∀ (seen acc : List RGB) (idx : ℕ),
      (∀ c, c ∈ acc ↔ c ∈ seen) →
      (l.map face_avg).foldl
          (fun acc c => if c ∈ acc then acc else acc ++ [c]) acc =
        acc ++ (findLoop seen idx l).map (fun p => p.2) := by
  induction l with
  | nil =>
    intro seen acc idx hinv
    simp [findLoop]
  | cons cs rest ih =>
    intro seen acc idx hinv
    simp only [List.map_cons, List.foldl_cons, findLoop]
    by_cases hmem : face_avg cs ∈ seen
    · rw [if_pos ((hinv _).mpr hmem), if_pos hmem]
      exact ih seen acc idx hinv
    · rw [if_neg (fun h => hmem ((hinv _).mp h)), if_neg hmem]
      have hinv' : ∀ c, c ∈ acc ++ [face_avg cs] ↔ c ∈ face_avg cs :: seen := by
        intro c
        simp only [List.mem_append, List.mem_singleton, List.mem_cons, hinv c]
        tauto
      rw [ih (face_avg cs :: seen) (acc ++ [face_avg cs]) (idx + 1) hinv']
      simp [List.map_cons]

/-- Membership in the first-occurrence fold. -/
theorem mem_foldl_firstOccur (l : List RGB) :
    ∀ (acc : List RGB) (c : RGB),
      (c ∈ l.foldl (fun acc c => if c ∈ acc then acc else acc ++ [c]) acc ↔
        c ∈ acc ∨ c ∈ l) := by
  induction l with
  | nil =>
    intro acc c
    simp
  | cons x xs ih =>
    intro acc c
    simp only [List.foldl_cons]
    by_cases hx : x ∈ acc
    · rw [if_pos hx, ih]
      constructor
      · rintro (h | h)
        · exact Or.inl h
        · exact Or.inr (List.mem_cons_of_mem _ h)
      · rintro (h | h)
        · exact Or.inl h
        · rcases List.mem_cons.mp h with rfl | h
          · exact Or.inl hx
          · exact Or.inr h
    · rw [if_neg hx, ih]
      simp only [List.mem_append, List.mem_singleton, List.mem_cons]
      tauto

/-- The first-occurrence fold of a nodup accumulator stays nodup. -/
theorem nodup_foldl_firstOccur (l : List RGB) :
    ∀ acc : List RGB, acc.Nodup →
      (l.foldl (fun acc c => if c ∈ acc then acc else acc ++ [c]) acc).Nodup := by
  induction l with
  | nil =>
    intro acc h
    simpa using h
  | cons x xs ih =>
    intro acc h
    simp only [List.foldl_cons]
    by_cases hx : x ∈ acc
    · rw [if_pos hx]
      exact ih acc h
    · rw [if_neg hx]
      refine ih _ ?_
      rw [← List.concat_eq_append]
      exact List.Nodup.concat hx h

/-- The labels produced by the find loop are `Col_{idx}`, `Col_{idx+1}`, …
in order. -/
theorem findLoop_labels (l : List (List RGB)) :
    ∀ (seen : List RGB) (idx : ℕ),
      (findLoop seen idx l).map (fun p => p.1) =
        (List.range (findLoop seen idx l).length).map
          (fun k => "Col_" ++ toString (idx + k)) := by
  induction l with
  | nil =>
    intro seen idx
    simp [findLoop]
  | cons cs rest ih =>
    intro seen idx
    simp only [findLoop]
    by_cases hmem : face_avg cs ∈ seen
    · rw [if_pos hmem]
      exact ih seen idx
    · rw [if_neg hmem]
      simp only [List.map_cons, List.length_cons]
      rw [ih (face_avg cs :: seen) (idx + 1), List.range_succ_eq_map]
      simp only [List.map_cons, List.map_map]
      refine congrArg₂ _ (by rw [Nat.add_zero]) ?_
      refine List.map_congr_left fun k _ => ?_
      have : idx + (k + 1) = idx + 1 + k := by omega
      simp [Function.comp, Nat.succ_eq_add_one, this]

/-- C10: the Find Face Colors listing contains each distinct rounded average
exactly once (deduplicated by exact equality of the rounded triples), in
first-occurrence order over the faces, labeled `Col_1`, `Col_2`, …
consecutively, and its length — the count the operator reports — is the
number of distinct rounded averages. -/
theorem find_face_colors_listing (faces : List (List RGB)) :
    ((findLoop [] 1 faces).map (fun p => p.2) =
        firstOccur (faces.map face_avg)) ∧
      ((findLoop [] 1 faces).map (fun p => p.2)).Nodup ∧
      (∀ c, c ∈ (findLoop [] 1 faces).map (fun p => p.2) ↔
        c ∈ faces.map face_avg) ∧
      ((findLoop [] 1 faces).map (fun p => p.1) =
        (List.range (findLoop [] 1 faces).length).map
          (fun k => "Col_" ++ toString (1 + k))) ∧
      (findLoop [] 1 faces).length = (faces.map face_avg).dedup.length := by
  have hfold := foldl_firstOccur_findLoop faces [] [] 1 (by simp)
  have h1 : (findLoop [] 1 faces).map (fun p => p.2) =
      firstOccur (faces.map face_avg) := by
    unfold firstOccur
    rw [hfold]
    simp
  have h2 : ((findLoop [] 1 faces).map (fun p => p.2)).Nodup := by
    rw [h1]
    exact nodup_foldl_firstOccur (faces.map face_avg) [] List.nodup_nil
  have h3 : ∀ c, c ∈ (findLoop [] 1 faces).map (fun p => p.2) ↔
      c ∈ faces.map face_avg := by
    intro c
    rw [h1]
    unfold firstOccur
    rw [mem_foldl_firstOccur]
    simp
  have h4 := findLoop_labels faces [] 1
  have h5 : (findLoop [] 1 faces).length =
      (faces.map face_avg).dedup.length := by
    have hperm : ((findLoop [] 1 faces).map (fun p => p.2)).Perm
        (faces.map face_avg).dedup :=
      (List.perm_ext_iff_of_nodup h2 (List.nodup_dedup _)).mpr
        (fun a => (h3 a).trans List.mem_dedup.symm)
    have hlen := hperm.length_eq
    simpa [List.length_map] using hlen
  exact ⟨h1, h2, h3, h4, h5⟩
